import Mathlib

/-!
Verification of the cedra-ts-sdk core against its specification.

Part 1 models the BCS (binary canonical serialization) layer: primitive
little-endian fixed-width integers, ULEB128 length prefixes, byte vectors,
sequences, optional values, and user-defined structs serialized in declared
field order.  The serializer sources are not part of the checked tree, so the
definitions here are modelled from the specification text.

Part 2 models the transaction-finality state machine of
src/internal/transaction.ts: the `waitForTransaction` polling loop,
`handleAPIError` classification, `isTransactionPending`, and the terminal
handling that produces `WaitForTransactionError` / `FailedTransactionError`.

Part 3 models src/account/SingleKeyAccount.ts over abstract cryptographic
operations: construction, address derivation, transaction signing, the
single-key authenticator, and the unsupported-scheme rejection in
`generate` / `fromDerivationPath`.
-/

/-! ## Part 1: BCS serialization, modelled from the spec -/

/-- Modelled from the spec: the grammar of supported BCS types — fixed-width
unsigned integers (8/16/32/64/128/256 bits), booleans, byte vectors,
sequences, optional values, and user-defined structs given by a fixed ordered
list of field types. -/
inductive BcsTy where
  | u8 | u16 | u32 | u64 | u128 | u256
  | boolTy
  | bytes
  | seq (t : BcsTy)
  | optionTy (t : BcsTy)
  | struct (fields : List BcsTy)

/-- Modelled from the spec: BCS values.  A struct value is a chain
`vcons f1 (vcons f2 ... vnil)` of its field values in declared order; a
sequence value `vseq c` wraps such a chain of equally-typed elements (the
wrapper marks where a ULEB128 length prefix is emitted). -/
inductive BcsVal where
  | vu8 (n : Nat) | vu16 (n : Nat) | vu32 (n : Nat)
  | vu64 (n : Nat) | vu128 (n : Nat) | vu256 (n : Nat)
  | vbool (b : Bool)
  | vbytes (bs : List Nat)
  | vnone
  | vsome (v : BcsVal)
  | vnil
  | vcons (hd tl : BcsVal)
  | vseq (c : BcsVal)
deriving DecidableEq, Repr

/-- Length of a `vcons` chain. -/
def vlen : BcsVal → Nat
  | .vcons _ tl => vlen tl + 1
  | _ => 0

/-- Modelled from the spec: little-endian fixed-width integer encoding,
`k` bytes, least significant byte first. -/
def serUInt : Nat → Nat → List Nat
  | 0, _ => []
  | k + 1, n => n % 256 :: serUInt k (n / 256)

/-- Modelled from the spec: read back a `k`-byte little-endian integer,
failing when fewer than `k` bytes remain. -/
def readUInt : Nat → List Nat → Option (Nat × List Nat)
  | 0, bs => some (0, bs)
  | _ + 1, [] => none
  | k + 1, b :: r =>
    match readUInt k r with
    | some (m, rest) => some (b + 256 * m, rest)
    | none => none

/-- Modelled from the spec: unsigned LEB128 — seven value bits per byte,
low group first, high bit of a byte set exactly when more bytes follow.
Zero encodes as the single byte `0`. -/
def serUleb (n : Nat) : List Nat :=
  if n < 128 then [n] else (n % 128 + 128) :: serUleb (n / 128)
termination_by n
decreasing_by
  exact Nat.div_lt_self (by omega) (by omega)

/-- Modelled from the spec: ULEB128 decoding; fails on an empty stream or a
dangling continuation byte. -/
def readUleb : List Nat → Option (Nat × List Nat)
  | [] => none
  | b :: r =>
    if b < 128 then some (b, r)
    else
      match readUleb r with
      | some (m, rest) => some ((b - 128) + 128 * m, rest)
      | none => none

/-- Modelled from the spec: length/count prefixes are ULEB128 values that must
fit in 32 bits; larger decoded values are an overflow failure. -/
def readUleb32 (bs : List Nat) : Option (Nat × List Nat) :=
  match readUleb bs with
  | some (n, rest) => if n < 2 ^ 32 then some (n, rest) else none
  | none => none

/-- Modelled from the spec: read exactly `n` bytes, failing when fewer remain. -/
def takeExact (n : Nat) (bs : List Nat) : Option (List Nat × List Nat) :=
  if n ≤ bs.length then some (bs.take n, bs.drop n) else none

/-- Modelled from the spec: a boolean-like byte — `0` or `1`; any other byte
is a decode failure. -/
def readBool : List Nat → Option (Bool × List Nat)
  | 0 :: r => some (false, r)
  | 1 :: r => some (true, r)
  | _ => none

/-- Modelled from the spec: the canonical serializer.  Fixed-width integers
are little-endian; a byte vector is a ULEB128 length prefix followed by its
raw bytes; an optional is a presence byte `0`/`1` followed by the value when
present; a sequence is a ULEB128 count prefix followed by its elements in
order; a struct is the concatenation of its field encodings in declared
order, with no prefix. -/
def serialize : BcsVal → List Nat
  | .vu8 n => serUInt 1 n
  | .vu16 n => serUInt 2 n
  | .vu32 n => serUInt 4 n
  | .vu64 n => serUInt 8 n
  | .vu128 n => serUInt 16 n
  | .vu256 n => serUInt 32 n
  | .vbool b => [if b then 1 else 0]
  | .vbytes bs => serUleb bs.length ++ bs
  | .vnone => [0]
  | .vsome v => 1 :: serialize v
  | .vnil => []
  | .vcons hd tl => serialize hd ++ serialize tl
  | .vseq c => serUleb (vlen c) ++ serialize c

/-- Modelled from the spec: the valid domain of each type.  Integers must fit
their width, bytes must be bytes with a 32-bit-expressible length, sequences
must have a 32-bit-expressible length, and a chain matches a struct when the
fields line up pointwise.  A sequence chain of `n` elements of type `t` is
checked as a struct whose field list is `n` copies of `t`. -/
def hasTy : BcsVal → BcsTy → Bool
  | .vu8 n, .u8 => decide (n < 2 ^ 8)
  | .vu16 n, .u16 => decide (n < 2 ^ 16)
  | .vu32 n, .u32 => decide (n < 2 ^ 32)
  | .vu64 n, .u64 => decide (n < 2 ^ 64)
  | .vu128 n, .u128 => decide (n < 2 ^ 128)
  | .vu256 n, .u256 => decide (n < 2 ^ 256)
  | .vbool _, .boolTy => true
  | .vbytes bs, .bytes => decide (bs.length < 2 ^ 32) && bs.all (fun b => decide (b < 256))
  | .vnone, .optionTy _ => true
  | .vsome v, .optionTy t => hasTy v t
  | .vseq c, .seq t => decide (vlen c < 2 ^ 32) && hasTy c (.struct (List.replicate (vlen c) t))
  | .vnil, .struct [] => true
  | .vcons hd tl, .struct (f :: fs) => hasTy hd f && hasTy tl (.struct fs)
  | _, _ => false

/-- Recursion measure for the deserializer: option adds one, sequence adds
two, a struct is one more than the largest field measure. -/
def tyMeasure : BcsTy → Nat
  | .optionTy t => tyMeasure t + 1
  | .seq t => tyMeasure t + 2
  | .struct [] => 1
  | .struct (f :: fs) => max (tyMeasure f + 1) (tyMeasure (.struct fs))
  | _ => 0
termination_by t => sizeOf t
decreasing_by
  all_goals simp_wf
  all_goals omega

/-- Modelled from the spec: the type-directed deserializer.  Each arm reads
exactly the bytes its type's encoding occupies and returns the decoded value
together with the remaining stream; any shortfall or invalid byte is a fatal
`none` for the whole decode attempt.  A sequence is read by decoding its
ULEB128 count `n` and then `n` elements, expressed as the struct whose field
list is `n` copies of the element type. -/
def deserialize : BcsTy → List Nat → Option (BcsVal × List Nat)
  | .u8, bs =>
    match readUInt 1 bs with
    | some (n, r) => some (.vu8 n, r)
    | none => none
  | .u16, bs =>
    match readUInt 2 bs with
    | some (n, r) => some (.vu16 n, r)
    | none => none
  | .u32, bs =>
    match readUInt 4 bs with
    | some (n, r) => some (.vu32 n, r)
    | none => none
  | .u64, bs =>
    match readUInt 8 bs with
    | some (n, r) => some (.vu64 n, r)
    | none => none
  | .u128, bs =>
    match readUInt 16 bs with
    | some (n, r) => some (.vu128 n, r)
    | none => none
  | .u256, bs =>
    match readUInt 32 bs with
    | some (n, r) => some (.vu256 n, r)
    | none => none
  | .boolTy, bs =>
    match readBool bs with
    | some (b, r) => some (.vbool b, r)
    | none => none
  | .bytes, bs =>
    match readUleb32 bs with
    | some (n, r) =>
      match takeExact n r with
      | some (chunk, rest) => some (.vbytes chunk, rest)
      | none => none
    | none => none
  | .optionTy t, bs =>
    match readBool bs with
    | some (false, r) => some (.vnone, r)
    | some (true, r) =>
      match deserialize t r with
      | some (v, rest) => some (.vsome v, rest)
      | none => none
    | none => none
  | .seq t, bs =>
    match readUleb32 bs with
    | some (n, r) =>
      match deserialize (.struct (List.replicate n t)) r with
      | some (c, rest) => some (.vseq c, rest)
      | none => none
    | none => none
  | .struct [], bs => some (.vnil, bs)
  | .struct (f :: fs), bs =>
    match deserialize f bs with
    | some (hd, r) =>
      match deserialize (.struct fs) r with
      | some (tl, rest) => some (.vcons hd tl, rest)
      | none => none
    | none => none
termination_by ty _ => (tyMeasure ty, sizeOf ty)
decreasing_by
  · apply Prod.Lex.left
    simp only [tyMeasure]
    omega
  · apply Prod.Lex.left
    have hrep : ∀ m : Nat, tyMeasure (.struct (List.replicate m t)) ≤ tyMeasure t + 1 := by
      intro m
      induction m with
      | zero => simp [tyMeasure, List.replicate]
      | succ k ih =>
        simp only [List.replicate_succ]
        simp only [tyMeasure]
        omega
    have h := hrep n
    simp only [tyMeasure]
    omega
  · apply Prod.Lex.left
    simp only [tyMeasure]
    omega
  · have hle : tyMeasure (BcsTy.struct fs) ≤ tyMeasure (BcsTy.struct (f :: fs)) := by
      simp only [tyMeasure]
      omega
    rcases Nat.lt_or_ge (tyMeasure (BcsTy.struct fs)) (tyMeasure (BcsTy.struct (f :: fs))) with hlt | hge
    · exact Prod.Lex.left _ _ hlt
    · have heq : tyMeasure (BcsTy.struct fs) = tyMeasure (BcsTy.struct (f :: fs)) := by omega
      rw [heq]
      apply Prod.Lex.right
      simp only [BcsTy.struct.sizeOf_spec, List.cons.sizeOf_spec]
      omega

/-! ## Part 2: the submission-finality state machine of src/internal/transaction.ts -/

/-- Variants of a transaction response as tagged by the node
(`TransactionResponseType` in src/types). -/
inductive TransactionResponseType where
  | Pending | User | Genesis | BlockMetadata | StateCheckpoint | Validator
deriving DecidableEq, Repr

/-- The part of a node transaction response that `waitForTransaction`
inspects: the variant tag, the execution `success` flag, and the VM status
string carried by committed responses. -/
structure TransactionResponse where
  type : TransactionResponseType
  success : Bool
  vm_status : String
deriving DecidableEq, Repr

/-- An error caught while fetching: either a `CedraApiError` carrying an
HTTP-like status code, or some other thrown value.  The `tag` field
distinguishes individual error objects so that "re-raised unchanged" is
expressible as equality. -/
inductive CaughtError where
  | cedraApiError (status : Nat) (tag : Nat)
  | nonApi (tag : Nat)
deriving DecidableEq, Repr

/-- Result of one network fetch: a transaction response, or a thrown error. -/
inductive FetchResult where
  | ok (txn : TransactionResponse)
  | err (e : CaughtError)
deriving DecidableEq, Repr

/-- Outcome of `handleAPIError` (src/internal/transaction.ts lines 210-221):
the updated `lastError` binding and, when the error is fatal, the re-raised
error. -/
structure HandleAPIErrorResult where
  newLastError : Option CaughtError
  thrown : Option CaughtError
deriving DecidableEq, Repr

/-- The `handleAPIError` helper of `waitForTransaction`: a non-`CedraApiError`
is re-raised at once and `lastError` is left alone; a `CedraApiError` is
always remembered in `lastError` and re-raised exactly when its status is a
4xx other than 404. -/
def handleAPIError (e : CaughtError) (lastError : Option CaughtError) : HandleAPIErrorResult :=
  match e with
  | .nonApi t => ⟨lastError, some (.nonApi t)⟩
  | .cedraApiError status tag =>
    if status ≠ 404 ∧ 400 ≤ status ∧ status < 500 then
      ⟨some (.cedraApiError status tag), some (.cedraApiError status tag)⟩
    else
      ⟨some (.cedraApiError status tag), none⟩

/-- How `waitForTransaction` terminates: return of a committed transaction,
`WaitForTransactionError` (timed out; carries the last seen snapshot if any),
`FailedTransactionError` (executed with `success == false`; carries the
`vm_status` and the transaction), or a re-thrown fetch error. -/
inductive WaitOutcome where
  | committed (txn : TransactionResponse)
  | waitForTransactionError (lastSubmittedTransaction : Option TransactionResponse)
  | failedTransactionError (vmStatus : String) (txn : TransactionResponse)
  | thrown (e : CaughtError)
deriving DecidableEq, Repr

/-- Mutable locals of the polling loop: the last fetched transaction, the
last remembered error, the elapsed-seconds counter, and the number `k` of
completed loop iterations (the code's `backoffIntervalMs` equals
`200 * 1.5 ^ k`). -/
structure LoopState where
  lastTxn : Option TransactionResponse
  lastError : Option CaughtError
  timeElapsed : ℚ
  k : Nat
deriving DecidableEq, Repr

/-- Backoff interval in milliseconds before iteration `k + 1`: starts at 200
and is multiplied by 1.5 after each attempt. -/
def backoffIntervalMs (k : Nat) : ℚ := 200 * (3 / 2) ^ k

/-- What the polling loop produced: its final locals, the re-raised error if
one aborted it, the number of fetch attempts it made, the list of backoff
sleeps it performed (in milliseconds, in order), and whether it exited
through the timeout check. -/
structure PollResult where
  final : LoopState
  thrown : Option CaughtError
  fetches : Nat
  sleeps : List ℚ
  timedOut : Bool
deriving DecidableEq, Repr

/-- Termination measure of the polling loop: each iteration adds at least a
fifth of a second to `timeElapsed`, so the ceiling of five times the time
still to go shrinks. -/
def waitMeasure (timeoutSecs t : ℚ) : Nat := (⌈(timeoutSecs - t) * 5⌉).toNat

/-- The active polling loop of `waitForTransaction` (src/internal/
transaction.ts lines 244-264), entered only while the transaction is
pending.  Each iteration: break once `timeElapsed` has reached the timeout;
fetch by hash — a non-pending response breaks, a pending one continues, an
error goes through `handleAPIError` (fatal ones abort the loop) — then sleep
for the current backoff interval, add it to `timeElapsed`, and grow it by
1.5x.  The oracle `poll k` supplies the response of the (k+1)-th loop
fetch. -/
def pollLoop (poll : Nat → FetchResult) (timeoutSecs : ℚ) (s : LoopState) : PollResult :=
  if h : timeoutSecs ≤ s.timeElapsed then ⟨s, none, 0, [], true⟩
  else
    match poll s.k with
    | .ok txn =>
      if txn.type = .Pending then
        let r := pollLoop poll timeoutSecs
          ⟨some txn, s.lastError, s.timeElapsed + backoffIntervalMs s.k / 1000, s.k + 1⟩
        ⟨r.final, r.thrown, r.fetches + 1, backoffIntervalMs s.k :: r.sleeps, r.timedOut⟩
      else
        ⟨⟨some txn, s.lastError, s.timeElapsed, s.k⟩, none, 1, [], false⟩
    | .err e =>
      let hr := handleAPIError e s.lastError
      match hr.thrown with
      | some thrownErr =>
        ⟨⟨s.lastTxn, hr.newLastError, s.timeElapsed, s.k⟩, some thrownErr, 1, [], false⟩
      | none =>
        let r := pollLoop poll timeoutSecs
          ⟨s.lastTxn, hr.newLastError, s.timeElapsed + backoffIntervalMs s.k / 1000, s.k + 1⟩
        ⟨r.final, r.thrown, r.fetches + 1, backoffIntervalMs s.k :: r.sleeps, r.timedOut⟩
termination_by waitMeasure timeoutSecs s.timeElapsed
decreasing_by
  all_goals
    simp only [waitMeasure]
    have hpow : (1 : ℚ) ≤ (3 / 2) ^ s.k := one_le_pow₀ (by norm_num)
    have hd : (1 / 5 : ℚ) ≤ backoffIntervalMs s.k / 1000 := by
      simp only [backoffIntervalMs]
      nlinarith
    have hlt : s.timeElapsed < timeoutSecs := lt_of_not_le h
    have h1 : (timeoutSecs - (s.timeElapsed + backoffIntervalMs s.k / 1000)) * 5 ≤
        (timeoutSecs - s.timeElapsed) * 5 - 1 := by nlinarith
    have h2 := Int.ceil_mono h1
    rw [Int.ceil_sub_one] at h2
    have h3 : (0 : ℤ) < ⌈(timeoutSecs - s.timeElapsed) * 5⌉ :=
      Int.ceil_pos.mpr (by nlinarith)
    omega

/-- Modelled from the spec: the documented default wait timeout
(`DEFAULT_TXN_TIMEOUT_SEC` in src/utils/const, "tens of seconds"). -/
def DEFAULT_TXN_TIMEOUT_SEC : ℚ := 20

/-- Options of `waitForTransaction`: an optional timeout in seconds and an
optional success-check flag (absent fields take the documented defaults). -/
structure WaitForTransactionOptions where
  timeoutSecs : Option ℚ
  checkSuccess : Option Bool
deriving DecidableEq, Repr

/-- Oracle for the network: the response of the first fetch-by-hash, the
response and measured wall-clock duration (milliseconds) of the single
long-poll, and the responses of the subsequent loop fetches by index. -/
structure Transport where
  initialFetch : FetchResult
  longPollFetch : FetchResult
  longPollMs : Nat
  poll : Nat → FetchResult

/-- Kinds of requests `waitForTransaction` issues: a plain fetch-by-hash
(`transactions/by_hash`) or the server-side long wait
(`transactions/wait_by_hash`). -/
inductive RequestKind where
  | byHash | waitByHash
deriving DecidableEq, Repr

/-- A run of `waitForTransaction`: its outcome, the requests it issued in
order, the backoff sleeps it performed, and the bookkeeping of the polling
loop (for runs that never enter the loop, `pollResult` records the loop
state at the point the loop was skipped, with zero fetches). -/
structure WaitResult where
  outcome : WaitOutcome
  requests : List RequestKind
  sleeps : List ℚ
  pollResult : PollResult

/-- Terminal handling of `waitForTransaction` (src/internal/transaction.ts
lines 266-294): with no snapshot at all, throw the remembered last error if
any, else a `WaitForTransactionError` with no snapshot; with a still-pending
snapshot, a `WaitForTransactionError` carrying it; with a committed snapshot,
return it unless success-checking is on and `success` is false, in which case
a `FailedTransactionError` carrying the `vm_status`. -/
def finishWait (checkSuccess : Bool) (lastTxn : Option TransactionResponse)
    (lastError : Option CaughtError) : WaitOutcome :=
  match lastTxn with
  | none =>
    match lastError with
    | some e => .thrown e
    | none => .waitForTransactionError none
  | some t =>
    if t.type = .Pending then .waitForTransactionError (some t)
    else if checkSuccess = false then .committed t
    else if t.success = false then .failedTransactionError t.vm_status t
    else .committed t

/-- Run the active polling loop from the given locals and apply the terminal
handling (or propagate an error the loop re-raised). -/
def runPoll (tr : Transport) (timeoutSecs : ℚ) (checkSuccess : Bool)
    (lastTxn : Option TransactionResponse) (lastError : Option CaughtError)
    (timeElapsed : ℚ) : WaitResult :=
  let r := pollLoop tr.poll timeoutSecs ⟨lastTxn, lastError, timeElapsed, 0⟩
  match r.thrown with
  | some e =>
    ⟨.thrown e, .byHash :: .waitByHash :: List.replicate r.fetches .byHash, r.sleeps, r⟩
  | none =>
    ⟨finishWait checkSuccess r.final.lastTxn r.final.lastError,
      .byHash :: .waitByHash :: List.replicate r.fetches .byHash, r.sleeps, r⟩

/-- The pending path of `waitForTransaction` (src/internal/transaction.ts
lines 231-241): one long-poll request; a non-pending response goes straight
to terminal handling, an error goes through `handleAPIError` (fatal ones
re-raise), and otherwise the active polling loop starts with `timeElapsed`
set to the measured duration of the long poll. -/
def waitPhase2 (tr : Transport) (timeoutSecs : ℚ) (checkSuccess : Bool)
    (lastTxn : Option TransactionResponse) (lastError : Option CaughtError) : WaitResult :=
  let t : ℚ := (tr.longPollMs : ℚ) / 1000
  match tr.longPollFetch with
  | .ok txn =>
    if txn.type = .Pending then
      runPoll tr timeoutSecs checkSuccess (some txn) lastError t
    else
      ⟨finishWait checkSuccess (some txn) lastError, [.byHash, .waitByHash], [],
        ⟨⟨some txn, lastError, t, 0⟩, none, 0, [], false⟩⟩
  | .err e =>
    let hr := handleAPIError e lastError
    match hr.thrown with
    | some thrownErr =>
      ⟨.thrown thrownErr, [.byHash, .waitByHash], [],
        ⟨⟨lastTxn, hr.newLastError, t, 0⟩, some thrownErr, 0, [], false⟩⟩
    | none =>
      runPoll tr timeoutSecs checkSuccess lastTxn hr.newLastError t

/-- The whole of `waitForTransaction` (src/internal/transaction.ts lines
187-295) against a transport oracle, also recording the requests issued and
the sleeps performed.  Defaults are resolved first; the initial fetch-by-hash
either short-circuits to terminal handling (already non-pending), re-raises a
fatal error, or leads into the pending path. -/
def waitForTransactionFull (tr : Transport) (options : WaitForTransactionOptions) : WaitResult :=
  let timeoutSecs := options.timeoutSecs.getD DEFAULT_TXN_TIMEOUT_SEC
  let checkSuccess := options.checkSuccess.getD true
  match tr.initialFetch with
  | .ok txn =>
    if txn.type = .Pending then
      waitPhase2 tr timeoutSecs checkSuccess (some txn) none
    else
      ⟨finishWait checkSuccess (some txn) none, [.byHash], [],
        ⟨⟨some txn, none, 0, 0⟩, none, 0, [], false⟩⟩
  | .err e =>
    let hr := handleAPIError e none
    match hr.thrown with
    | some thrownErr =>
      ⟨.thrown thrownErr, [.byHash], [],
        ⟨⟨none, hr.newLastError, 0, 0⟩, some thrownErr, 0, [], false⟩⟩
    | none =>
      waitPhase2 tr timeoutSecs checkSuccess none hr.newLastError

/-- Outcome-only view of `waitForTransaction`. -/
def waitForTransaction (tr : Transport) (options : WaitForTransactionOptions) : WaitOutcome :=
  (waitForTransactionFull tr options).outcome

/-- The `isTransactionPending` helper (src/internal/transaction.ts lines
134-148): fetch by hash and report whether the response is the pending
variant; a fetch error with status 404 is reported as pending, any other
fetch error propagates unchanged. -/
def isTransactionPending (fetch : FetchResult) : Except CaughtError Bool :=
  match fetch with
  | .ok txn => .ok (decide (txn.type = .Pending))
  | .err e =>
    match e with
    | .cedraApiError 404 tag => .ok true
    | _ => .error e

/-- Total seconds slept by the first `n` backoff sleeps,
`sum of 200 * 1.5 ^ i / 1000 for i < n = 0.2 * (1.5 ^ n - 1) / 0.5`. -/
def backoffTotalSecs (n : Nat) : ℚ := 1 / 5 * ((3 / 2) ^ n - 1) / (1 / 2)

/-! ## Part 3: src/account/SingleKeyAccount.ts over abstract crypto -/

section SingleKeyModel

variable {PrivKey PubKey AuthKey Sig AddrInput Addr RawTxn Msg : Type}

/-- Wrapper adding the scheme-tagging layer around a public key
(`AnyPublicKey` in src/core/crypto). -/
structure AnyPublicKey (PubKey : Type) where
  publicKey : PubKey
deriving DecidableEq, Repr

/-- Wrapper adding the scheme-tagging layer around a signature
(`AnySignature` in src/core/crypto). -/
structure AnySignature (Sig : Type) where
  signature : Sig
deriving DecidableEq, Repr

/-- The single-key account authenticator: the tagged public key together
with the tagged signature (`AccountAuthenticatorSingleKey` in
src/transactions/authenticator/account). -/
structure AccountAuthenticatorSingleKey (PubKey Sig : Type) where
  public_key : AnyPublicKey PubKey
  signature : AnySignature Sig
deriving DecidableEq, Repr

/-- Modelled from the spec: the cryptographic collaborators of
SingleKeyAccount.ts, which live outside the checked tree (src/core/crypto,
src/core/accountAddress, src/transactions/transactionBuilder): public-key
extraction, raw signing, authentication-key derivation and its address view,
address parsing, signing-message derivation, and the per-scheme key
generators.  The account code is verified for every interpretation of
these. -/
structure SingleKeyOps (PrivKey PubKey AuthKey Sig AddrInput Addr RawTxn Msg : Type) where
  publicKey : PrivKey → PubKey
  sign : PrivKey → Msg → Sig
  authKey : AnyPublicKey PubKey → AuthKey
  derivedAddress : AuthKey → Addr
  addressFrom : AddrInput → Addr
  generateSigningMessageForTransaction : RawTxn → Msg
  ed25519Generate : Unit → PrivKey
  secp256k1Generate : Unit → PrivKey
  ed25519FromDerivationPath : String → String → PrivKey
  secp256k1FromDerivationPath : String → String → PrivKey

/-- The state of a constructed `SingleKeyAccount`: the private key, the
wrapped public key, and the account address. -/
structure SingleKeyAccount (PrivKey PubKey Addr : Type) where
  privateKey : PrivKey
  publicKey : AnyPublicKey PubKey
  accountAddress : Addr

/-- The `SingleKeyAccount` constructor (src/account/SingleKeyAccount.ts
lines 119-124): wrap the public key of the private key; take the supplied
address through `AccountAddress.from` when present, otherwise derive it via
`authKey().derivedAddress()`. -/
def SingleKeyAccount.create
    (C : SingleKeyOps PrivKey PubKey AuthKey Sig AddrInput Addr RawTxn Msg)
    (privateKey : PrivKey) (address : Option AddrInput) :
    SingleKeyAccount PrivKey PubKey Addr :=
  let publicKey := AnyPublicKey.mk (C.publicKey privateKey)
  { privateKey := privateKey
    publicKey := publicKey
    accountAddress :=
      match address with
      | some a => C.addressFrom a
      | none => C.derivedAddress (C.authKey publicKey) }

/-- The `sign` method (src/account/SingleKeyAccount.ts lines 256-258):
sign the message with the private key and wrap the result. -/
def SingleKeyAccount.sign
    (C : SingleKeyOps PrivKey PubKey AuthKey Sig AddrInput Addr RawTxn Msg)
    (acc : SingleKeyAccount PrivKey PubKey Addr) (message : Msg) : AnySignature Sig :=
  AnySignature.mk (C.sign acc.privateKey message)

/-- The `signTransaction` method (src/account/SingleKeyAccount.ts lines
269-271): derive the signing message of the transaction and sign it. -/
def SingleKeyAccount.signTransaction
    (C : SingleKeyOps PrivKey PubKey AuthKey Sig AddrInput Addr RawTxn Msg)
    (acc : SingleKeyAccount PrivKey PubKey Addr) (transaction : RawTxn) : AnySignature Sig :=
  SingleKeyAccount.sign C acc (C.generateSigningMessageForTransaction transaction)

/-- The `signWithAuthenticator` method (src/account/SingleKeyAccount.ts
lines 233-235): package the account's public key with the message
signature. -/
def SingleKeyAccount.signWithAuthenticator
    (C : SingleKeyOps PrivKey PubKey AuthKey Sig AddrInput Addr RawTxn Msg)
    (acc : SingleKeyAccount PrivKey PubKey Addr) (message : Msg) :
    AccountAuthenticatorSingleKey PubKey Sig :=
  AccountAuthenticatorSingleKey.mk acc.publicKey (SingleKeyAccount.sign C acc message)

/-- The `signTransactionWithAuthenticator` method
(src/account/SingleKeyAccount.ts lines 245-247): package the account's
public key with the transaction signature. -/
def SingleKeyAccount.signTransactionWithAuthenticator
    (C : SingleKeyOps PrivKey PubKey AuthKey Sig AddrInput Addr RawTxn Msg)
    (acc : SingleKeyAccount PrivKey PubKey Addr) (transaction : RawTxn) :
    AccountAuthenticatorSingleKey PubKey Sig :=
  AccountAuthenticatorSingleKey.mk acc.publicKey (SingleKeyAccount.signTransaction C acc transaction)

end SingleKeyModel

/-- Modelled from the spec: the numeric value of `SigningSchemeInput.Ed25519`
(a TypeScript numeric enum member; the claims do not depend on the value). -/
def SigningSchemeInputEd25519 : Nat := 0

/-- Modelled from the spec: the numeric value of
`SigningSchemeInput.Secp256k1Ecdsa`. -/
def SigningSchemeInputSecp256k1Ecdsa : Nat := 2

section SingleKeyGen

variable {PrivKey PubKey AuthKey Sig AddrInput Addr RawTxn Msg : Type}

/-- The static `generate` (src/account/SingleKeyAccount.ts lines 141-155):
the scheme defaults to Ed25519; Ed25519 and Secp256k1Ecdsa generate a key of
that scheme and construct the account with no explicit address; any other
scheme throws `Unsupported signature scheme ${scheme}` before any key
material is produced. -/
def SingleKeyAccount.generate
    (C : SingleKeyOps PrivKey PubKey AuthKey Sig AddrInput Addr RawTxn Msg)
    (scheme : Option Nat) : Except String (SingleKeyAccount PrivKey PubKey Addr) :=
  let s := scheme.getD SigningSchemeInputEd25519
  if s = SigningSchemeInputEd25519 then
    .ok (SingleKeyAccount.create C (C.ed25519Generate ()) none)
  else if s = SigningSchemeInputSecp256k1Ecdsa then
    .ok (SingleKeyAccount.create C (C.secp256k1Generate ()) none)
  else
    .error ("Unsupported signature scheme " ++ toString s)

/-- The static `fromDerivationPath` (src/account/SingleKeyAccount.ts lines
170-184): same scheme dispatch as `generate`, deriving the key from a BIP44
path and mnemonic instead of fresh randomness. -/
def SingleKeyAccount.fromDerivationPath
    (C : SingleKeyOps PrivKey PubKey AuthKey Sig AddrInput Addr RawTxn Msg)
    (scheme : Option Nat) (path mnemonic : String) :
    Except String (SingleKeyAccount PrivKey PubKey Addr) :=
  let s := scheme.getD SigningSchemeInputEd25519
  if s = SigningSchemeInputEd25519 then
    .ok (SingleKeyAccount.create C (C.ed25519FromDerivationPath path mnemonic) none)
  else if s = SigningSchemeInputSecp256k1Ecdsa then
    .ok (SingleKeyAccount.create C (C.secp256k1FromDerivationPath path mnemonic) none)
  else
    .error ("Unsupported signature scheme " ++ toString s)

end SingleKeyGen

/-- Substring test on character lists, used to state what an error message
does and does not report. -/
def containsSub (hay needle : List Char) : Bool :=
  match hay with
  | [] => needle.isEmpty
  | _ :: t => needle.isPrefixOf hay || containsSub t needle

/-- Concrete interpretation of the abstract crypto operations over `Nat`
carriers, used to instantiate the parametric account theorems. -/
def natSingleKeyOps : SingleKeyOps Nat Nat Nat Nat Nat Nat Nat Nat :=
  { publicKey := fun k => k + 1
    sign := fun k m => 1000 * k + m
    authKey := fun p => 7 * p.publicKey
    derivedAddress := fun a => a + 3
    addressFrom := fun a => a
    generateSigningMessageForTransaction := fun t => 2 * t
    ed25519Generate := fun _ => 11
    secp256k1Generate := fun _ => 13
    ed25519FromDerivationPath := fun _ _ => 17
    secp256k1FromDerivationPath := fun _ _ => 19 }

/-- Second concrete interpretation whose key generators disagree with
`natSingleKeyOps` everywhere, used to show rejected schemes consume no key
material. -/
def natSingleKeyOpsAlt : SingleKeyOps Nat Nat Nat Nat Nat Nat Nat Nat :=
  { publicKey := fun k => k + 1
    sign := fun k m => 1000 * k + m
    authKey := fun p => 7 * p.publicKey
    derivedAddress := fun a => a + 3
    addressFrom := fun a => a
    generateSigningMessageForTransaction := fun t => 2 * t
    ed25519Generate := fun _ => 101
    secp256k1Generate := fun _ => 103
    ed25519FromDerivationPath := fun _ _ => 107
    secp256k1FromDerivationPath := fun _ _ => 109 }

/-! ## Round-trip lemmas for the BCS model -/

theorem readUInt_serUInt (k : Nat) :
    ∀ (n : Nat) (rest : List Nat), n < 256 ^ k →
      readUInt k (serUInt k n ++ rest) = some (n, rest) := by
  induction k with
  | zero =>
    intro n rest h
    simp only [pow_zero, Nat.lt_one_iff] at h
    subst h
    simp [serUInt, readUInt]
  | succ k ih =>
    intro n rest h
    have hdiv : n / 256 < 256 ^ k := by
      rw [Nat.div_lt_iff_lt_mul (by omega)]
      calc n < 256 ^ (k + 1) := h
        _ = 256 ^ k * 256 := by rw [pow_succ]
    simp only [serUInt, List.cons_append, readUInt, List.append_eq, ih (n / 256) rest hdiv]
    have : n % 256 + 256 * (n / 256) = n := by omega
    rw [this]

theorem readUleb_serUleb (n : Nat) :
    ∀ rest : List Nat, readUleb (serUleb n ++ rest) = some (n, rest) := by
  induction n using Nat.strong_induction_on with
  | _ n ih =>
    intro rest
    unfold serUleb
    by_cases h : n < 128
    · rw [if_pos h]
      simp [readUleb, h]
    · rw [if_neg h]
      have hrec := ih (n / 128) (Nat.div_lt_self (by omega) (by omega)) rest
      simp only [List.cons_append, readUleb, List.append_eq]
      rw [if_neg (by omega)]
      rw [hrec]
      simp
      omega

theorem takeExact_append (l r : List Nat) : takeExact l.length (l ++ r) = some (l, r) := by
  unfold takeExact
  rw [if_pos (by simp)]
  rw [List.take_left, List.drop_left]

theorem deserialize_serialize (v : BcsVal) :
    ∀ (t : BcsTy) (rest : List Nat), hasTy v t = true →
      deserialize t (serialize v ++ rest) = some (v, rest) := by
  induction v with
  | vu8 n =>
    intro t rest h
    cases t <;> simp [hasTy] at h
    simp [serialize, deserialize, readUInt_serUInt 1 n rest (by norm_num; omega)]
  | vu16 n =>
    intro t rest h
    cases t <;> simp [hasTy] at h
    simp [serialize, deserialize, readUInt_serUInt 2 n rest (by norm_num; omega)]
  | vu32 n =>
    intro t rest h
    cases t <;> simp [hasTy] at h
    simp [serialize, deserialize, readUInt_serUInt 4 n rest (by norm_num; omega)]
  | vu64 n =>
    intro t rest h
    cases t <;> simp [hasTy] at h
    simp [serialize, deserialize, readUInt_serUInt 8 n rest (by norm_num; omega)]
  | vu128 n =>
    intro t rest h
    cases t <;> simp [hasTy] at h
    simp [serialize, deserialize, readUInt_serUInt 16 n rest (by norm_num; omega)]
  | vu256 n =>
    intro t rest h
    cases t <;> simp [hasTy] at h
    simp [serialize, deserialize, readUInt_serUInt 32 n rest (by norm_num; omega)]
  | vbool b =>
    intro t rest h
    cases t <;> simp [hasTy] at h
    cases b <;> simp [serialize, deserialize, readBool]
  | vbytes bs =>
    intro t rest h
    cases t <;> simp [hasTy] at h
    rw [serialize, List.append_assoc]
    simp [deserialize, readUleb32, readUleb_serUleb, h.1, takeExact_append]
  | vnone =>
    intro t rest h
    cases t <;> simp [hasTy] at h
    simp [serialize, deserialize, readBool]
  | vsome v ih =>
    intro t rest h
    cases t with
    | optionTy t =>
      simp only [hasTy] at h
      simp [serialize, deserialize, readBool, ih t rest h]
    | _ => simp [hasTy] at h
  | vnil =>
    intro t rest h
    cases t with
    | struct fields =>
      cases fields with
      | nil => simp [serialize, deserialize]
      | cons f fs => simp [hasTy] at h
    | _ => simp [hasTy] at h
  | vcons hd tl ih_hd ih_tl =>
    intro t rest h
    cases t with
    | struct fields =>
      cases fields with
      | nil => simp [hasTy] at h
      | cons f fs =>
        simp only [hasTy, Bool.and_eq_true] at h
        rw [serialize, List.append_assoc]
        simp [deserialize, ih_hd f (serialize tl ++ rest) h.1, ih_tl (.struct fs) rest h.2]
    | _ => simp [hasTy] at h
  | vseq c ih =>
    intro t rest h
    cases t with
    | seq t =>
      simp [hasTy] at h
      rw [serialize, List.append_assoc]
      simp [deserialize, readUleb32, readUleb_serUleb, h.1,
        ih (.struct (List.replicate (vlen c) t)) rest h.2]
    | _ => simp [hasTy] at h

/-- Claim C1: for every supported primitive value and every user-defined
struct type built from the supported primitives in a fixed declared field
order, deserialization is the inverse of serialization — deserializing the
serialization of any well-typed value (ahead of any continuation of the
stream) yields exactly that value, so with an empty continuation
`deserialize (serialize x) = x`; boundary values (0, the integer maxima, the
empty byte vector, the empty sequence, the absent optional) are instances of
the quantified statement. -/
theorem claim_C1_roundTrip (v : BcsVal) (t : BcsTy) (rest : List Nat)
    (h : hasTy v t = true) :
    deserialize t (serialize v ++ rest) = some (v, rest) :=
  deserialize_serialize v t rest h

theorem claim_C1_roundTrip_witness :
    hasTy
      (.vcons (.vu8 0) (.vcons (.vu8 255) (.vcons (.vu64 (2 ^ 64 - 1))
        (.vcons (.vu128 (2 ^ 128 - 1)) (.vcons (.vu256 (2 ^ 256 - 1))
        (.vcons (.vbytes []) (.vcons (.vseq .vnil) (.vcons .vnone .vnil))))))))
      (.struct [.u8, .u8, .u64, .u128, .u256, .bytes, .seq .u64, .optionTy .u8]) = true ∧
    deserialize
      (.struct [.u8, .u8, .u64, .u128, .u256, .bytes, .seq .u64, .optionTy .u8])
      (serialize
        (.vcons (.vu8 0) (.vcons (.vu8 255) (.vcons (.vu64 (2 ^ 64 - 1))
          (.vcons (.vu128 (2 ^ 128 - 1)) (.vcons (.vu256 (2 ^ 256 - 1))
          (.vcons (.vbytes []) (.vcons (.vseq .vnil) (.vcons .vnone .vnil)))))))) ++ []) =
      some
        (.vcons (.vu8 0) (.vcons (.vu8 255) (.vcons (.vu64 (2 ^ 64 - 1))
          (.vcons (.vu128 (2 ^ 128 - 1)) (.vcons (.vu256 (2 ^ 256 - 1))
          (.vcons (.vbytes []) (.vcons (.vseq .vnil) (.vcons .vnone .vnil))))))), []) :=
  ⟨by decide, claim_C1_roundTrip _ _ [] (by decide)⟩

/-! ## Lemmas about the polling loop -/

theorem pollLoop_eq_timeout (poll : Nat → FetchResult) (T : ℚ) (s : LoopState)
    (h : T ≤ s.timeElapsed) : pollLoop poll T s = ⟨s, none, 0, [], true⟩ := by
  unfold pollLoop
  rw [dif_pos h]

theorem pollLoop_eq_ok_pending (poll : Nat → FetchResult) (T : ℚ) (s : LoopState)
    (txn : TransactionResponse) (h : ¬ T ≤ s.timeElapsed)
    (hp : poll s.k = .ok txn) (hpend : txn.type = .Pending) :
    pollLoop poll T s =
      ⟨(pollLoop poll T
          ⟨some txn, s.lastError, s.timeElapsed + backoffIntervalMs s.k / 1000, s.k + 1⟩).final,
        (pollLoop poll T
          ⟨some txn, s.lastError, s.timeElapsed + backoffIntervalMs s.k / 1000, s.k + 1⟩).thrown,
        (pollLoop poll T
          ⟨some txn, s.lastError, s.timeElapsed + backoffIntervalMs s.k / 1000, s.k + 1⟩).fetches + 1,
        backoffIntervalMs s.k ::
          (pollLoop poll T
            ⟨some txn, s.lastError, s.timeElapsed + backoffIntervalMs s.k / 1000, s.k + 1⟩).sleeps,
        (pollLoop poll T
          ⟨some txn, s.lastError, s.timeElapsed + backoffIntervalMs s.k / 1000, s.k + 1⟩).timedOut⟩ := by
  conv_lhs => rw [pollLoop]
  rw [dif_neg h, hp]
  simp only [hpend, if_true]

theorem pollLoop_eq_ok_final (poll : Nat → FetchResult) (T : ℚ) (s : LoopState)
    (txn : TransactionResponse) (h : ¬ T ≤ s.timeElapsed)
    (hp : poll s.k = .ok txn) (hpend : txn.type ≠ .Pending) :
    pollLoop poll T s =
      ⟨⟨some txn, s.lastError, s.timeElapsed, s.k⟩, none, 1, [], false⟩ := by
  conv_lhs => rw [pollLoop]
  rw [dif_neg h, hp]
  simp [hpend]

theorem pollLoop_eq_err_thrown (poll : Nat → FetchResult) (T : ℚ) (s : LoopState)
    (e thrownErr : CaughtError) (h : ¬ T ≤ s.timeElapsed)
    (hp : poll s.k = .err e) (ht : (handleAPIError e s.lastError).thrown = some thrownErr) :
    pollLoop poll T s =
      ⟨⟨s.lastTxn, (handleAPIError e s.lastError).newLastError, s.timeElapsed, s.k⟩,
        some thrownErr, 1, [], false⟩ := by
  conv_lhs => rw [pollLoop]
  rw [dif_neg h, hp]
  simp only [ht]

theorem pollLoop_eq_err_retry (poll : Nat → FetchResult) (T : ℚ) (s : LoopState)
    (e : CaughtError) (h : ¬ T ≤ s.timeElapsed)
    (hp : poll s.k = .err e) (ht : (handleAPIError e s.lastError).thrown = none) :
    pollLoop poll T s =
      ⟨(pollLoop poll T
          ⟨s.lastTxn, (handleAPIError e s.lastError).newLastError,
            s.timeElapsed + backoffIntervalMs s.k / 1000, s.k + 1⟩).final,
        (pollLoop poll T
          ⟨s.lastTxn, (handleAPIError e s.lastError).newLastError,
            s.timeElapsed + backoffIntervalMs s.k / 1000, s.k + 1⟩).thrown,
        (pollLoop poll T
          ⟨s.lastTxn, (handleAPIError e s.lastError).newLastError,
            s.timeElapsed + backoffIntervalMs s.k / 1000, s.k + 1⟩).fetches + 1,
        backoffIntervalMs s.k ::
          (pollLoop poll T
            ⟨s.lastTxn, (handleAPIError e s.lastError).newLastError,
              s.timeElapsed + backoffIntervalMs s.k / 1000, s.k + 1⟩).sleeps,
        (pollLoop poll T
          ⟨s.lastTxn, (handleAPIError e s.lastError).newLastError,
            s.timeElapsed + backoffIntervalMs s.k / 1000, s.k + 1⟩).timedOut⟩ := by
  conv_lhs => rw [pollLoop]
  rw [dif_neg h, hp]
  simp only [ht]

theorem backoffTotalSecs_eq (n : Nat) : backoffTotalSecs n = 2 / 5 * ((3 / 2) ^ n - 1) := by
  unfold backoffTotalSecs
  ring

theorem backoffTotalSecs_succ (k : Nat) :
    backoffTotalSecs (k + 1) = backoffTotalSecs k + backoffIntervalMs k / 1000 := by
  rw [backoffTotalSecs_eq, backoffTotalSecs_eq]
  unfold backoffIntervalMs
  rw [pow_succ]
  ring

theorem backoffTotalSecs_mono {a b : Nat} (h : a ≤ b) :
    backoffTotalSecs a ≤ backoffTotalSecs b := by
  rw [backoffTotalSecs_eq, backoffTotalSecs_eq]
  have hp := pow_le_pow_right₀ (by norm_num : (1 : ℚ) ≤ 3 / 2) h
  linarith

theorem backoffTotalSecs_lt_of_lt {a b : Nat} (h : backoffTotalSecs a < backoffTotalSecs b) :
    a < b := by
  by_contra hc
  push_neg at hc
  exact absurd (backoffTotalSecs_mono hc) (not_le.mpr h)

theorem pollLoop_fetches_le (poll : Nat → FetchResult) (T : ℚ) (s : LoopState) :
    backoffTotalSecs s.k ≤ s.timeElapsed →
      (pollLoop poll T s).fetches = 0 ∨
        backoffTotalSecs (s.k + (pollLoop poll T s).fetches - 1) < T := by
  induction s using pollLoop.induct poll T with
  | case1 x hx =>
    intro hinv
    rw [pollLoop_eq_timeout poll T x hx]
    left
    rfl
  | case2 x hx txn hp hpend ih =>
    intro hinv
    rw [pollLoop_eq_ok_pending poll T x txn hx hp hpend]
    right
    simp only []
    have hinv2 : backoffTotalSecs (x.k + 1) ≤ x.timeElapsed + backoffIntervalMs x.k / 1000 := by
      rw [backoffTotalSecs_succ]
      linarith
    rcases ih hinv2 with h0 | hlt
    · rw [h0]
      have hk : x.k + (0 + 1) - 1 = x.k := by omega
      rw [hk]
      have := lt_of_not_le hx
      linarith
    · have hk : x.k +
          ((pollLoop poll T
            ⟨some txn, x.lastError, x.timeElapsed + backoffIntervalMs x.k / 1000, x.k + 1⟩).fetches
            + 1) - 1 =
          x.k + 1 +
          (pollLoop poll T
            ⟨some txn, x.lastError, x.timeElapsed + backoffIntervalMs x.k / 1000, x.k + 1⟩).fetches
            - 1 := by omega
      rw [hk]
      exact hlt
  | case3 x hx txn hp hpend =>
    intro hinv
    rw [pollLoop_eq_ok_final poll T x txn hx hp hpend]
    right
    simp only []
    have hk : x.k + 1 - 1 = x.k := by omega
    rw [hk]
    have := lt_of_not_le hx
    linarith
  | case4 x hx e hp hr thrownErr ht =>
    intro hinv
    rw [pollLoop_eq_err_thrown poll T x e thrownErr hx hp ht]
    right
    simp only []
    have hk : x.k + 1 - 1 = x.k := by omega
    rw [hk]
    have := lt_of_not_le hx
    linarith
  | case5 x hx e hp hr ht ih =>
    intro hinv
    rw [pollLoop_eq_err_retry poll T x e hx hp ht]
    right
    simp only []
    have hinv2 : backoffTotalSecs (x.k + 1) ≤ x.timeElapsed + backoffIntervalMs x.k / 1000 := by
      rw [backoffTotalSecs_succ]
      linarith
    rcases ih hinv2 with h0 | hlt
    · rw [h0]
      have hk : x.k + (0 + 1) - 1 = x.k := by omega
      rw [hk]
      have := lt_of_not_le hx
      linarith
    · have hk : x.k +
          ((pollLoop poll T
            ⟨x.lastTxn, (handleAPIError e x.lastError).newLastError,
              x.timeElapsed + backoffIntervalMs x.k / 1000, x.k + 1⟩).fetches
            + 1) - 1 =
          x.k + 1 +
          (pollLoop poll T
            ⟨x.lastTxn, (handleAPIError e x.lastError).newLastError,
              x.timeElapsed + backoffIntervalMs x.k / 1000, x.k + 1⟩).fetches
            - 1 := by omega
      rw [hk]
      exact hlt

theorem pollLoop_sleeps_shape (poll : Nat → FetchResult) (T : ℚ) (s : LoopState) :
    (pollLoop poll T s).sleeps =
      (List.range (pollLoop poll T s).sleeps.length).map
        (fun i => backoffIntervalMs (s.k + i)) := by
  induction s using pollLoop.induct poll T with
  | case1 x hx =>
    rw [pollLoop_eq_timeout poll T x hx]
    simp
  | case2 x hx txn hp hpend ih =>
    rw [pollLoop_eq_ok_pending poll T x txn hx hp hpend]
    simp only [List.length_cons]
    rw [List.range_succ_eq_map, List.map_cons, List.map_map]
    have hfun : ((fun i => backoffIntervalMs (x.k + i)) ∘ Nat.succ) =
        fun i => backoffIntervalMs (x.k + 1 + i) := by
      funext i
      simp only [Function.comp_apply]
      congr 1
      omega
    rw [hfun]
    congr 1
  | case3 x hx txn hp hpend =>
    rw [pollLoop_eq_ok_final poll T x txn hx hp hpend]
    simp
  | case4 x hx e hp hr thrownErr ht =>
    rw [pollLoop_eq_err_thrown poll T x e thrownErr hx hp ht]
    simp
  | case5 x hx e hp hr ht ih =>
    rw [pollLoop_eq_err_retry poll T x e hx hp ht]
    simp only [List.length_cons]
    rw [List.range_succ_eq_map, List.map_cons, List.map_map]
    have hfun : ((fun i => backoffIntervalMs (x.k + i)) ∘ Nat.succ) =
        fun i => backoffIntervalMs (x.k + 1 + i) := by
      funext i
      simp only [Function.comp_apply]
      congr 1
      omega
    rw [hfun]
    congr 1

theorem pollLoop_exit (poll : Nat → FetchResult) (T : ℚ) (s : LoopState) :
    (pollLoop poll T s).thrown = none →
      (pollLoop poll T s).timedOut = true ∨
        ∃ txn, (pollLoop poll T s).final.lastTxn = some txn ∧
          txn.type ≠ TransactionResponseType.Pending := by
  induction s using pollLoop.induct poll T with
  | case1 x hx =>
    rw [pollLoop_eq_timeout poll T x hx]
    intro _
    left
    rfl
  | case2 x hx txn hp hpend ih =>
    rw [pollLoop_eq_ok_pending poll T x txn hx hp hpend]
    exact ih
  | case3 x hx txn hp hpend =>
    rw [pollLoop_eq_ok_final poll T x txn hx hp hpend]
    intro _
    right
    exact ⟨txn, rfl, hpend⟩
  | case4 x hx e hp hr thrownErr ht =>
    rw [pollLoop_eq_err_thrown poll T x e thrownErr hx hp ht]
    intro hc
    simp at hc
  | case5 x hx e hp hr ht ih =>
    rw [pollLoop_eq_err_retry poll T x e hx hp ht]
    exact ih

/-- Claim C2: during waitForTransaction's fetch attempts, a 404 API error is
treated as still-pending and polling continues — `handleAPIError` does not
re-raise it and the loop proceeds into the next backoff iteration with the
error remembered; a 5xx API error is likewise retried; a 4xx API error other
than 404 aborts polling immediately (that fetch is the loop's last) and is
re-raised unchanged to the caller. -/
theorem claim_C2_errorClassification (status tag : Nat) (le : Option CaughtError)
    (poll : Nat → FetchResult) (T : ℚ) (s : LoopState)
    (hrun : ¬ T ≤ s.timeElapsed) (hp : poll s.k = .err (.cedraApiError status tag)) :
    (status = 404 ∨ 500 ≤ status →
      (handleAPIError (.cedraApiError status tag) le).thrown = none ∧
      (pollLoop poll T s).thrown =
        (pollLoop poll T ⟨s.lastTxn, some (.cedraApiError status tag),
          s.timeElapsed + backoffIntervalMs s.k / 1000, s.k + 1⟩).thrown ∧
      (pollLoop poll T s).fetches =
        (pollLoop poll T ⟨s.lastTxn, some (.cedraApiError status tag),
          s.timeElapsed + backoffIntervalMs s.k / 1000, s.k + 1⟩).fetches + 1 ∧
      (pollLoop poll T s).final =
        (pollLoop poll T ⟨s.lastTxn, some (.cedraApiError status tag),
          s.timeElapsed + backoffIntervalMs s.k / 1000, s.k + 1⟩).final) ∧
    (status ≠ 404 → 400 ≤ status → status < 500 →
      (handleAPIError (.cedraApiError status tag) le).thrown =
        some (.cedraApiError status tag) ∧
      pollLoop poll T s =
        ⟨⟨s.lastTxn, some (.cedraApiError status tag), s.timeElapsed, s.k⟩,
          some (.cedraApiError status tag), 1, [], false⟩) := by
  constructor
  · intro hcase
    have hhle : handleAPIError (.cedraApiError status tag) le =
        ⟨some (.cedraApiError status tag), none⟩ := by
      simp only [handleAPIError]
      rw [if_neg (by omega)]
    have hhs : handleAPIError (.cedraApiError status tag) s.lastError =
        ⟨some (.cedraApiError status tag), none⟩ := by
      simp only [handleAPIError]
      rw [if_neg (by omega)]
    have heq := pollLoop_eq_err_retry poll T s (.cedraApiError status tag) hrun hp
      (by rw [hhs])
    rw [hhs] at heq
    refine ⟨by rw [hhle], ?_, ?_, ?_⟩ <;> rw [heq]
  · intro h1 h2 h3
    have hhle : handleAPIError (.cedraApiError status tag) le =
        ⟨some (.cedraApiError status tag), some (.cedraApiError status tag)⟩ := by
      simp only [handleAPIError]
      rw [if_pos ⟨h1, h2, h3⟩]
    have hhs : handleAPIError (.cedraApiError status tag) s.lastError =
        ⟨some (.cedraApiError status tag), some (.cedraApiError status tag)⟩ := by
      simp only [handleAPIError]
      rw [if_pos ⟨h1, h2, h3⟩]
    have heq := pollLoop_eq_err_thrown poll T s (.cedraApiError status tag)
      (.cedraApiError status tag) hrun hp (by rw [hhs])
    rw [hhs] at heq
    exact ⟨by rw [hhle], heq⟩

theorem claim_C2_errorClassification_witness :
    (¬ (20 : ℚ) ≤ (0 : ℚ)) ∧
    ((fun _ : Nat => FetchResult.err (.cedraApiError 404 0)) (0 : Nat) =
      FetchResult.err (.cedraApiError 404 0)) ∧
    (handleAPIError (.cedraApiError 404 0) none).thrown = none ∧
    (pollLoop (fun _ => .err (.cedraApiError 404 0)) 20 ⟨none, none, 0, 0⟩).fetches =
      (pollLoop (fun _ => .err (.cedraApiError 404 0)) 20
        ⟨none, some (.cedraApiError 404 0), 0 + backoffIntervalMs 0 / 1000, 0 + 1⟩).fetches + 1 := by
  have h := (claim_C2_errorClassification 404 0 none
    (fun _ => .err (.cedraApiError 404 0)) 20 ⟨none, none, 0, 0⟩
    (by norm_num) rfl).1 (Or.inl rfl)
  exact ⟨by norm_num, rfl, h.1, h.2.2.1⟩

/-- Claim C3: terminal handling of waitForTransaction — on timeout with a
still-pending last snapshot it throws `WaitForTransactionError` carrying that
snapshot (and with no snapshot and no remembered error, one carrying none);
on a non-pending snapshot with `success = false` and success-checking on
(the default) it throws `FailedTransactionError` carrying the on-chain
`vm_status`; otherwise it returns the committed transaction. -/
theorem claim_C3_terminalHandling (checkSuccess : Bool) (t : TransactionResponse)
    (le : Option CaughtError) :
    (t.type = .Pending →
      finishWait checkSuccess (some t) le = .waitForTransactionError (some t)) ∧
    (finishWait checkSuccess none none = .waitForTransactionError none) ∧
    (t.type ≠ .Pending → t.success = false →
      finishWait true (some t) le = .failedTransactionError t.vm_status t) ∧
    (t.type ≠ .Pending → (checkSuccess = false ∨ t.success = true) →
      finishWait checkSuccess (some t) le = .committed t) := by
  refine ⟨fun hp => ?_, rfl, fun hnp hf => ?_, fun hnp hok => ?_⟩
  · simp only [finishWait]
    rw [if_pos hp]
  · simp only [finishWait]
    rw [if_neg hnp, if_neg (by simp), if_pos hf]
  · simp only [finishWait]
    rcases hok with hcs | hs
    · rw [if_neg hnp, if_pos (by rw [hcs])]
    · rw [if_neg hnp]
      by_cases hcs : checkSuccess = false
      · rw [if_pos hcs]
      · rw [if_neg hcs, if_neg (by rw [hs]; simp)]

theorem claim_C3_terminalHandling_witness :
    ((⟨.Pending, false, "status"⟩ : TransactionResponse).type = .Pending) ∧
    finishWait true (some ⟨.Pending, false, "status"⟩) none =
      .waitForTransactionError (some ⟨.Pending, false, "status"⟩) := by
  refine ⟨rfl, ?_⟩
  exact (claim_C3_terminalHandling true ⟨.Pending, false, "status"⟩ none).1 rfl

/-- Claim C5: a non-retryable API error encountered during fetching is
remembered as the "last error" — `handleAPIError` records a fatal 4xx
`CedraApiError` into `lastError` even as it re-raises it — and if the wait
ends with no successful fetch ever having occurred (no transaction snapshot)
while an error was remembered, the terminal handling throws that remembered
error; the generic timeout error is thrown only when nothing was
remembered. -/
theorem claim_C5_lastErrorSurfaced (status tag : Nat) (le : Option CaughtError)
    (checkSuccess : Bool) (e : CaughtError) :
    (status ≠ 404 → 400 ≤ status → status < 500 →
      (handleAPIError (.cedraApiError status tag) le).newLastError =
        some (.cedraApiError status tag)) ∧
    (finishWait checkSuccess none (some e) = .thrown e) ∧
    (finishWait checkSuccess none none = .waitForTransactionError none) := by
  refine ⟨fun h1 h2 h3 => ?_, rfl, rfl⟩
  simp only [handleAPIError]
  rw [if_pos ⟨h1, h2, h3⟩]

theorem claim_C5_lastErrorSurfaced_witness :
    ((400 : Nat) ≠ 404) ∧ (400 ≤ 400) ∧ (400 < 500) ∧
    (handleAPIError (.cedraApiError 400 0) none).newLastError =
      some (.cedraApiError 400 0) := by
  refine ⟨by decide, by decide, by decide, ?_⟩
  exact (claim_C5_lastErrorSurfaced 400 0 none true (.nonApi 0)).1
    (by decide) (by decide) (by decide)

/-- Claim C10: isTransactionPending returns true both when the fetched
transaction has the pending type and when the fetch fails with an API error
of status 404 (a transaction not yet known to the node is reported pending,
not as an error); a fetched non-pending transaction reports false, and any
other fetch failure propagates unchanged to the caller. -/
theorem claim_C10_isTransactionPending (txn : TransactionResponse) (status tag : Nat) :
    (isTransactionPending (.ok txn) = .ok (decide (txn.type = .Pending))) ∧
    (isTransactionPending (.err (.cedraApiError 404 tag)) = .ok true) ∧
    (status ≠ 404 →
      isTransactionPending (.err (.cedraApiError status tag)) =
        .error (.cedraApiError status tag)) ∧
    (isTransactionPending (.err (.nonApi tag)) = .error (.nonApi tag)) := by
  refine ⟨rfl, rfl, fun h => ?_, rfl⟩
  simp only [isTransactionPending]
  split
  · rename_i tag2 heq
    injection heq with h1 h2
    exact absurd h1 h
  · rfl

theorem claim_C10_isTransactionPending_witness :
    ((500 : Nat) ≠ 404) ∧
    isTransactionPending (.err (.cedraApiError 500 7)) =
      .error (.cedraApiError 500 7) := by
  refine ⟨by decide, ?_⟩
  exact (claim_C10_isTransactionPending ⟨.Pending, true, ""⟩ 500 7).2.2.1 (by decide)

/-! ## Lemmas about the assembled pipeline -/

theorem runPoll_components (tr : Transport) (T : ℚ) (cs : Bool)
    (lastTxn : Option TransactionResponse) (lastError : Option CaughtError) (t : ℚ) :
    (runPoll tr T cs lastTxn lastError t).pollResult =
      pollLoop tr.poll T ⟨lastTxn, lastError, t, 0⟩ ∧
    (runPoll tr T cs lastTxn lastError t).requests =
      .byHash :: .waitByHash ::
        List.replicate (pollLoop tr.poll T ⟨lastTxn, lastError, t, 0⟩).fetches .byHash ∧
    (runPoll tr T cs lastTxn lastError t).sleeps =
      (pollLoop tr.poll T ⟨lastTxn, lastError, t, 0⟩).sleeps := by
  unfold runPoll
  cases h : (pollLoop tr.poll T ⟨lastTxn, lastError, t, 0⟩).thrown <;> simp [h]

theorem runPoll_shape (tr : Transport) (T : ℚ) (cs : Bool)
    (lastTxn : Option TransactionResponse) (lastError : Option CaughtError) (t : ℚ) :
    (runPoll tr T cs lastTxn lastError t).requests =
      .byHash :: .waitByHash ::
        List.replicate (runPoll tr T cs lastTxn lastError t).pollResult.fetches .byHash ∧
    (runPoll tr T cs lastTxn lastError t).requests.count .waitByHash = 1 ∧
    (runPoll tr T cs lastTxn lastError t).sleeps =
      (List.range (runPoll tr T cs lastTxn lastError t).sleeps.length).map
        (fun i => 200 * (3 / 2 : ℚ) ^ i) ∧
    ((runPoll tr T cs lastTxn lastError t).pollResult.thrown = none →
      (runPoll tr T cs lastTxn lastError t).pollResult.timedOut = true ∨
        ∃ txn, (runPoll tr T cs lastTxn lastError t).pollResult.final.lastTxn = some txn ∧
          txn.type ≠ TransactionResponseType.Pending) := by
  obtain ⟨hpr, hreq, hsl⟩ := runPoll_components tr T cs lastTxn lastError t
  have hshape := pollLoop_sleeps_shape tr.poll T ⟨lastTxn, lastError, t, 0⟩
  have hfun : ∀ i : Nat,
      backoffIntervalMs ((⟨lastTxn, lastError, t, 0⟩ : LoopState).k + i) =
        200 * (3 / 2 : ℚ) ^ i := by
    intro i
    simp [backoffIntervalMs]
  refine ⟨?_, ?_, ?_, ?_⟩
  · rw [hreq, hpr]
  · rw [hreq]
    simp [List.count_cons, List.count_replicate]
  · have hmap : (pollLoop tr.poll T ⟨lastTxn, lastError, t, 0⟩).sleeps =
        (List.range
          (pollLoop tr.poll T ⟨lastTxn, lastError, t, 0⟩).sleeps.length).map
          (fun i => 200 * (3 / 2 : ℚ) ^ i) := by
      conv_lhs => rw [hshape]
      congr 1
      funext i
      simp [backoffIntervalMs]
    rw [hsl]
    exact hmap
  · rw [hpr]
    exact pollLoop_exit tr.poll T ⟨lastTxn, lastError, t, 0⟩

theorem waitFull_initial_pending (tr : Transport) (options : WaitForTransactionOptions)
    (t0 : TransactionResponse) (hinit : tr.initialFetch = .ok t0)
    (hpend : t0.type = TransactionResponseType.Pending) :
    waitForTransactionFull tr options =
      waitPhase2 tr (options.timeoutSecs.getD DEFAULT_TXN_TIMEOUT_SEC)
        (options.checkSuccess.getD true) (some t0) none := by
  unfold waitForTransactionFull
  rw [hinit]
  simp [hpend]

/-- Claim C4: when the initial fetch-by-hash reports the transaction as
pending, waitForTransaction issues exactly one long-poll request before
active polling (the request trace is one by-hash fetch, one wait-by-hash
call, then only by-hash fetches); active polling sleeps follow exponential
backoff starting at 200 ms and multiplied by 1.5 after each attempt; and
unless an error aborted it, the run stopped polling either because the
timeout elapsed or because a non-pending result was observed. -/
theorem claim_C4_longPollThenBackoff (tr : Transport) (options : WaitForTransactionOptions)
    (t0 : TransactionResponse) (hinit : tr.initialFetch = .ok t0)
    (hpend : t0.type = TransactionResponseType.Pending) :
    (waitForTransactionFull tr options).requests =
      .byHash :: .waitByHash ::
        List.replicate (waitForTransactionFull tr options).pollResult.fetches .byHash ∧
    (waitForTransactionFull tr options).requests.count .waitByHash = 1 ∧
    (waitForTransactionFull tr options).sleeps =
      (List.range (waitForTransactionFull tr options).sleeps.length).map
        (fun i => 200 * (3 / 2 : ℚ) ^ i) ∧
    ((waitForTransactionFull tr options).pollResult.thrown = none →
      (waitForTransactionFull tr options).pollResult.timedOut = true ∨
        ∃ txn, (waitForTransactionFull tr options).pollResult.final.lastTxn = some txn ∧
          txn.type ≠ TransactionResponseType.Pending) := by
  rw [waitFull_initial_pending tr options t0 hinit hpend]
  unfold waitPhase2
  rcases hlp : tr.longPollFetch with txn | e
  · by_cases hlpend : txn.type = TransactionResponseType.Pending
    · simp only [hlpend, if_true]
      exact runPoll_shape tr _ _ (some txn) none _
    · simp only [hlpend, if_false]
      refine ⟨by simp, by decide, by simp, ?_⟩
      intro _
      right
      exact ⟨txn, rfl, hlpend⟩
  · cases hthr : (handleAPIError e none).thrown with
    | some e2 =>
      simp only [hthr]
      refine ⟨by simp, by decide, by simp, ?_⟩
      intro hc
      simp at hc
    | none =>
      simp only [hthr]
      exact runPoll_shape tr _ _ (some t0) _ _

theorem claim_C4_longPollThenBackoff_witness :
    (Transport.mk (.ok ⟨.Pending, true, ""⟩) (.ok ⟨.User, true, "Executed successfully"⟩) 0
        (fun _ => .ok ⟨.User, true, "Executed successfully"⟩)).initialFetch =
      .ok ⟨.Pending, true, ""⟩ ∧
    (⟨.Pending, true, ""⟩ : TransactionResponse).type = .Pending ∧
    (waitForTransactionFull
        (Transport.mk (.ok ⟨.Pending, true, ""⟩) (.ok ⟨.User, true, "Executed successfully"⟩) 0
          (fun _ => .ok ⟨.User, true, "Executed successfully"⟩))
        ⟨none, none⟩).requests.count .waitByHash = 1 :=
  ⟨rfl, rfl,
    (claim_C4_longPollThenBackoff
      (Transport.mk (.ok ⟨.Pending, true, ""⟩) (.ok ⟨.User, true, "Executed successfully"⟩) 0
        (fun _ => .ok ⟨.User, true, "Executed successfully"⟩))
      ⟨none, none⟩ ⟨.Pending, true, ""⟩ rfl rfl).2.1⟩

theorem waitPhase2_pollResult_cases (tr : Transport) (T : ℚ) (cs : Bool)
    (lastTxn : Option TransactionResponse) (lastError : Option CaughtError) :
    (waitPhase2 tr T cs lastTxn lastError).pollResult.fetches = 0 ∨
    ∃ lt le, (waitPhase2 tr T cs lastTxn lastError).pollResult =
        pollLoop tr.poll T ⟨lt, le, (tr.longPollMs : ℚ) / 1000, 0⟩ := by
  unfold waitPhase2
  rcases hlp : tr.longPollFetch with txn | e
  · by_cases hp : txn.type = TransactionResponseType.Pending
    · simp only [hp, if_true]
      right
      exact ⟨some txn, lastError, (runPoll_components tr T cs (some txn) lastError _).1⟩
    · simp only [hp, if_false]
      left
      trivial
  · cases hthr : (handleAPIError e lastError).thrown with
    | some e2 =>
      simp only [hthr]
      left
      trivial
    | none =>
      simp only [hthr]
      right
      exact ⟨lastTxn, (handleAPIError e lastError).newLastError,
        (runPoll_components tr T cs lastTxn _ _).1⟩

theorem waitFull_pollResult_cases (tr : Transport) (options : WaitForTransactionOptions) :
    (waitForTransactionFull tr options).pollResult.fetches = 0 ∨
    ∃ lt le, (waitForTransactionFull tr options).pollResult =
        pollLoop tr.poll (options.timeoutSecs.getD DEFAULT_TXN_TIMEOUT_SEC)
          ⟨lt, le, (tr.longPollMs : ℚ) / 1000, 0⟩ := by
  unfold waitForTransactionFull
  rcases hI : tr.initialFetch with txn | e
  · by_cases hp : txn.type = TransactionResponseType.Pending
    · simp only [hp, if_true]
      exact waitPhase2_pollResult_cases tr _ _ (some txn) none
    · simp only [hp, if_false]
      left
      trivial
  · cases hthr : (handleAPIError e none).thrown with
    | some e2 =>
      simp only [hthr]
      left
      trivial
    | none =>
      simp only [hthr]
      exact waitPhase2_pollResult_cases tr _ _ none _

/-- Claim C9: for every timeout and every sequence of transport responses
the active-polling loop performs only finitely many iterations and
waitForTransaction always terminates with a return or a throw — whenever the
geometric backoff total 0.2 * (1.5 ^ n - 1) / 0.5 seconds reaches the
resolved timeout, the number of loop fetches is at most n. -/
theorem claim_C9_terminatesBounded (tr : Transport) (options : WaitForTransactionOptions)
    (n : Nat)
    (hn : options.timeoutSecs.getD DEFAULT_TXN_TIMEOUT_SEC ≤
      1 / 5 * ((3 / 2 : ℚ) ^ n - 1) / (1 / 2)) :
    (waitForTransactionFull tr options).pollResult.fetches ≤ n ∧
    ((∃ t, waitForTransaction tr options = .committed t) ∨
     (∃ o, waitForTransaction tr options = .waitForTransactionError o) ∨
     (∃ v t, waitForTransaction tr options = .failedTransactionError v t) ∨
     (∃ e, waitForTransaction tr options = .thrown e)) := by
  constructor
  · rcases waitFull_pollResult_cases tr options with h0 | ⟨lt, le, heq⟩
    · omega
    · rw [heq]
      have hinv : backoffTotalSecs
            ((⟨lt, le, (tr.longPollMs : ℚ) / 1000, 0⟩ : LoopState)).k ≤
          ((⟨lt, le, (tr.longPollMs : ℚ) / 1000, 0⟩ : LoopState)).timeElapsed := by
        rw [backoffTotalSecs_eq]
        simp only [pow_zero]
        have : (0 : ℚ) ≤ (tr.longPollMs : ℚ) / 1000 := by positivity
        calc (2 / 5 : ℚ) * (1 - 1) = 0 := by ring
          _ ≤ (tr.longPollMs : ℚ) / 1000 := this
      have hb := pollLoop_fetches_le tr.poll
        (options.timeoutSecs.getD DEFAULT_TXN_TIMEOUT_SEC)
        ⟨lt, le, (tr.longPollMs : ℚ) / 1000, 0⟩ hinv
      rcases hb with h0 | hlt
      · rw [h0]
        omega
      · have hSn : options.timeoutSecs.getD DEFAULT_TXN_TIMEOUT_SEC ≤
            backoffTotalSecs n := hn
        have hab := backoffTotalSecs_lt_of_lt (lt_of_lt_of_le hlt hSn)
        simp only [] at hab
        omega
  · cases h : waitForTransaction tr options with
    | committed t => exact Or.inl ⟨t, rfl⟩
    | waitForTransactionError o => exact Or.inr (Or.inl ⟨o, rfl⟩)
    | failedTransactionError v t => exact Or.inr (Or.inr (Or.inl ⟨v, t, rfl⟩))
    | thrown e => exact Or.inr (Or.inr (Or.inr ⟨e, rfl⟩))

theorem claim_C9_terminatesBounded_witness :
    ((⟨some 0, none⟩ : WaitForTransactionOptions).timeoutSecs.getD DEFAULT_TXN_TIMEOUT_SEC ≤
      1 / 5 * ((3 / 2 : ℚ) ^ 0 - 1) / (1 / 2)) ∧
    (waitForTransactionFull
      (Transport.mk (.ok ⟨.User, true, ""⟩) (.ok ⟨.User, true, ""⟩) 0
        (fun _ => .ok ⟨.User, true, ""⟩))
      ⟨some 0, none⟩).pollResult.fetches ≤ 0 :=
  ⟨by norm_num,
    (claim_C9_terminatesBounded
      (Transport.mk (.ok ⟨.User, true, ""⟩) (.ok ⟨.User, true, ""⟩) 0
        (fun _ => .ok ⟨.User, true, ""⟩))
      ⟨some 0, none⟩ 0 (by norm_num)).1⟩

/-- Claim C6: a SingleKeyAccount constructed from a private key and an
optional address has `accountAddress` equal to the supplied address (taken
through `AccountAddress.from`) when one is given, and otherwise equal to the
address derived from the wrapped public key via
`authKey().derivedAddress()`. -/
theorem claim_C6_constructorAddress
    {PrivKey PubKey AuthKey Sig AddrInput Addr RawTxn Msg : Type}
    (C : SingleKeyOps PrivKey PubKey AuthKey Sig AddrInput Addr RawTxn Msg)
    (privateKey : PrivKey) (address : Option AddrInput) :
    (∀ a, address = some a →
      (SingleKeyAccount.create C privateKey address).accountAddress = C.addressFrom a) ∧
    (address = none →
      (SingleKeyAccount.create C privateKey address).accountAddress =
        C.derivedAddress (C.authKey (AnyPublicKey.mk (C.publicKey privateKey)))) := by
  constructor
  · intro a ha
    subst ha
    rfl
  · intro ha
    subst ha
    rfl

theorem claim_C6_constructorAddress_witness :
    ((some 9 : Option Nat) = some 9) ∧
    (SingleKeyAccount.create natSingleKeyOps 5 (some 9)).accountAddress =
      natSingleKeyOps.addressFrom 9 ∧
    ((none : Option Nat) = none) ∧
    (SingleKeyAccount.create natSingleKeyOps 5 none).accountAddress =
      natSingleKeyOps.derivedAddress
        (natSingleKeyOps.authKey (AnyPublicKey.mk (natSingleKeyOps.publicKey 5))) :=
  ⟨rfl, (claim_C6_constructorAddress natSingleKeyOps 5 (some 9)).1 9 rfl,
    rfl, (claim_C6_constructorAddress natSingleKeyOps 5 none).2 rfl⟩

/-- Claim C7: for every SingleKeyAccount and raw transaction,
`signTransaction` equals `sign` applied to the signing message derived from
the transaction (in full, the wrapped raw signature of that message), and
`signTransactionWithAuthenticator` returns an `AccountAuthenticatorSingleKey`
packaging the account's public key with exactly that signature. -/
theorem claim_C7_signTransactionDelegation
    {PrivKey PubKey AuthKey Sig AddrInput Addr RawTxn Msg : Type}
    (C : SingleKeyOps PrivKey PubKey AuthKey Sig AddrInput Addr RawTxn Msg)
    (acc : SingleKeyAccount PrivKey PubKey Addr) (t : RawTxn) :
    SingleKeyAccount.signTransaction C acc t =
      SingleKeyAccount.sign C acc (C.generateSigningMessageForTransaction t) ∧
    SingleKeyAccount.signTransaction C acc t =
      AnySignature.mk (C.sign acc.privateKey (C.generateSigningMessageForTransaction t)) ∧
    SingleKeyAccount.signTransactionWithAuthenticator C acc t =
      AccountAuthenticatorSingleKey.mk acc.publicKey
        (SingleKeyAccount.signTransaction C acc t) ∧
    SingleKeyAccount.signTransactionWithAuthenticator C acc t =
      AccountAuthenticatorSingleKey.mk acc.publicKey
        (AnySignature.mk (C.sign acc.privateKey (C.generateSigningMessageForTransaction t))) :=
  ⟨rfl, rfl, rfl, rfl⟩

/-- Claim C8 as written is false on the code: the rejection error for an
unsupported scheme is `Unsupported signature scheme ${scheme}`, which names
the offending scheme but does not report which schemes are supported — the
message mentions neither Ed25519 nor Secp256k1. -/
theorem claim_C8_counterexample :
    SingleKeyAccount.generate natSingleKeyOps (some 3) =
      .error ("Unsupported signature scheme 3") ∧
    SingleKeyAccount.fromDerivationPath natSingleKeyOps (some 3) "m/44h/637h/0h/0h/0h"
      "abandon" = .error ("Unsupported signature scheme 3") ∧
    containsSub ("Unsupported signature scheme 3").toList ("Ed25519").toList = false ∧
    containsSub ("Unsupported signature scheme 3").toList ("Secp256k1").toList = false := by
  refine ⟨?_, ?_, by decide, by decide⟩
  · rfl
  · rfl

/-- Claim C8 (amended): for every signing scheme other than Ed25519 and
Secp256k1Ecdsa, `SingleKeyAccount.generate` and
`SingleKeyAccount.fromDerivationPath` reject the operation immediately with
an error naming the offending scheme, before any key material is produced —
the result does not depend on the key-generation operations at all. -/
theorem claim_C8_unsupportedScheme
    {PrivKey PubKey AuthKey Sig AddrInput Addr RawTxn Msg : Type}
    (C D : SingleKeyOps PrivKey PubKey AuthKey Sig AddrInput Addr RawTxn Msg)
    (s : Nat) (path mnemonic : String)
    (h0 : s ≠ SigningSchemeInputEd25519) (h2 : s ≠ SigningSchemeInputSecp256k1Ecdsa) :
    SingleKeyAccount.generate C (some s) =
      .error ("Unsupported signature scheme " ++ toString s) ∧
    SingleKeyAccount.fromDerivationPath C (some s) path mnemonic =
      .error ("Unsupported signature scheme " ++ toString s) ∧
    SingleKeyAccount.generate C (some s) = SingleKeyAccount.generate D (some s) ∧
    SingleKeyAccount.fromDerivationPath C (some s) path mnemonic =
      SingleKeyAccount.fromDerivationPath D (some s) path mnemonic := by
  unfold SingleKeyAccount.generate SingleKeyAccount.fromDerivationPath
  simp only [Option.getD_some]
  simp only [if_neg h0, if_neg h2]
  exact ⟨trivial, trivial, trivial, trivial⟩

theorem claim_C8_unsupportedScheme_witness :
    ((3 : Nat) ≠ SigningSchemeInputEd25519) ∧
    ((3 : Nat) ≠ SigningSchemeInputSecp256k1Ecdsa) ∧
    SingleKeyAccount.generate natSingleKeyOps (some 3) =
      .error ("Unsupported signature scheme " ++ toString (3 : Nat)) ∧
    SingleKeyAccount.generate natSingleKeyOps (some 3) =
      SingleKeyAccount.generate natSingleKeyOpsAlt (some 3) :=
  ⟨by decide, by decide,
    (claim_C8_unsupportedScheme natSingleKeyOps natSingleKeyOpsAlt 3 "m" "x"
      (by decide) (by decide)).1,
    (claim_C8_unsupportedScheme natSingleKeyOps natSingleKeyOpsAlt 3 "m" "x"
      (by decide) (by decide)).2.2.1⟩
